import Mathlib

/-!
Verification of the glam/goat component-template parser and compiler.

This file is a shallow embedding, in Lean 4, of the hand-written
recursive-descent template parser in `src/template/template.go`
(`parseRoot`, `parseTag`, `parseAttributes`, `parseQuotedAttribute`,
`skipGoTemplate`, `parseUntilCloseTag`, `skipWhitespace`), of the
lowering compiler in `src/unnamed/part_002`
(`compile`, `rawCompile`, `rewriteChildren`, `rewriteTemplateRunes`,
`isIdentRune`), and of the registration entry point `RegisterComponent`
of the glam engine (`src/internal/compiler/compiler.go`, second unit).

Modelling conventions:
- Go's mutable cursor `t.pos` becomes explicit position passing; every
  looping or recursive Go construct becomes a fuel-indexed Lean function
  (fuel exhaustion is reported as a distinct outcome and never occurs on
  the concrete inputs used in the theorems below).
- Go run-time panics (explicit `panic(...)` calls, out-of-range rune
  indexing, and out-of-range slicing) are modelled by the `Res.panic`
  outcome carrying the panic message.
- Go `[]rune` values are `List Char`; `string(runes[a:b])` is
  `String.mk` of the corresponding slice.
- Go maps (`map[string]string`, `map[string]bool`, the engine's
  component and template maps) are modelled as association lists /
  name lists with insertion-order iteration.  Go map iteration order is
  unspecified; no theorem below depends on the order of more than one
  entry.
- `crypto/rand` based `randomString` (used for synthetic block
  identifiers) is modelled by a deterministic counter supply threaded
  through the compiler; no theorem depends on identifier contents
  beyond their syntactic position.
- Go `unicode.IsUpper/IsLower/IsLetter/IsDigit/IsSpace` are modelled on
  the ASCII/Latin-1 range (all inputs in this development are ASCII;
  on that range the Go functions agree with the definitions below).
-/

/-- Outcome of running a piece of embedded Go code: a normal result, a
run-time panic carrying the Go panic message (also used for index and
slice out-of-range faults), or fuel exhaustion of the embedding. -/
inductive Res (α : Type) where
  | ok : α → Res α
  | panic : String → Res α
  | fuel : Res α
deriving DecidableEq, Repr

namespace Res

/-- Monadic bind: propagate panics and fuel exhaustion. -/
def bind : Res α → (α → Res β) → Res β
  | ok a, f => f a
  | panic m, _ => panic m
  | fuel, _ => fuel

instance : Monad Res where
  pure := Res.ok
  bind := Res.bind

end Res

/-- ASCII/Latin-1 fragment of Go `unicode.IsSpace`. -/
def goIsSpace (c : Char) : Bool :=
  c = ' ' || c = '\t' || c = '\n' || c = '\x0b' || c = '\x0c' || c = '\r'
    || c = '\x85' || c = '\xa0'

/-- ASCII fragment of Go `unicode.IsUpper`. -/
def goIsUpper (c : Char) : Bool := 'A' ≤ c && c ≤ 'Z'

/-- ASCII fragment of Go `unicode.IsLower`. -/
def goIsLower (c : Char) : Bool := 'a' ≤ c && c ≤ 'z'

/-- ASCII fragment of Go `unicode.IsLetter`. -/
def goIsLetter (c : Char) : Bool := goIsUpper c || goIsLower c

/-- ASCII fragment of Go `unicode.IsDigit`. -/
def goIsDigit (c : Char) : Bool := '0' ≤ c && c ≤ '9'

/-- Rune indexing `runes[i]`; Go panics when the index is out of range. -/
def idx (rs : List Char) (i : Nat) : Res Char :=
  if h : i < rs.length then .ok rs[i] else .panic "index out of range"

/-- Rune slicing `runes[a:b]`; Go panics when the bounds are invalid. -/
def goSlice (rs : List Char) (a b : Nat) : Res (List Char) :=
  if a ≤ b ∧ b ≤ rs.length then .ok ((rs.drop a).take (b - a))
  else .panic "slice bounds out of range"

/-- Node type tag, mirroring `NodeTypeComponent` / `NodeTypeRaw`. -/
inductive NodeType where
  | component
  | raw
deriving DecidableEq, Repr

/-- The parser's `Node` struct: every Go field is present (components
carry an empty `raw` field, raw nodes carry empty component fields),
mirroring the single Go struct with a `Type` discriminator. -/
inductive Node where
  | mk (type : NodeType) (tagName : String)
      (attributes : List (String × String)) (children : List Node)
      (raw : String)

/-- Field accessor for `Node.Type`. -/
def Node.type : Node → NodeType
  | .mk t _ _ _ _ => t

/-- Field accessor for `Node.TagName`. -/
def Node.tagName : Node → String
  | .mk _ n _ _ _ => n

/-- Field accessor for `Node.Attributes`. -/
def Node.attributes : Node → List (String × String)
  | .mk _ _ a _ _ => a

/-- Field accessor for `Node.Children`. -/
def Node.children : Node → List Node
  | .mk _ _ _ c _ => c

/-- Field accessor for `Node.Raw`. -/
def Node.raw : Node → String
  | .mk _ _ _ _ r => r

/-- A raw node as the parser builds it (only `Type` and `Raw` set). -/
def mkRaw (s : String) : Node := .mk .raw "" [] [] s

/-- A component node as the parser builds it (no `Raw` content). -/
def mkComponent (tag : String) (attrs : List (String × String))
    (children : List Node) : Node := .mk .component tag attrs children ""

/-- Go map `m[k] = v` on an association list: replace an existing key's
value in place, otherwise append the new entry. -/
def insertKV (k v : String) : List (String × String) → List (String × String)
  | [] => [(k, v)]
  | (k', v') :: rest =>
      if k' = k then (k, v) :: rest else (k', v') :: insertKV k v rest

/-- Go map `m[k] = true` on a name list (set semantics). -/
def insertName (k : String) (l : List String) : List String :=
  if l.contains k then l else l ++ [k]

/-- Embedding of `skipWhitespace`: advance while `unicode.IsSpace`;
reading past the end of the runes panics, as in Go. -/
def skipWhitespace (rs : List Char) (pos : Nat) : Nat → Res Nat
  | 0 => .fuel
  | fuel + 1 =>
      (idx rs pos).bind fun c =>
        if goIsSpace c then skipWhitespace rs (pos + 1) fuel else .ok pos

/-- The Go loop `for runes[pos] != '>' { pos++ }`: position of the next
`>` at or after `pos` (panics at end of input, as in Go). -/
def scanToGt (rs : List Char) (pos : Nat) : Nat → Res Nat
  | 0 => .fuel
  | fuel + 1 =>
      (idx rs pos).bind fun c =>
        if c = '>' then .ok pos else scanToGt rs (pos + 1) fuel

/-- The tag-name scan `for runes[pos] != ' ' && runes[pos] != '>'`. -/
def scanNameEnd (rs : List Char) (pos : Nat) : Nat → Res Nat
  | 0 => .fuel
  | fuel + 1 =>
      (idx rs pos).bind fun c =>
        if c ≠ ' ' ∧ c ≠ '>' then scanNameEnd rs (pos + 1) fuel else .ok pos

/-- The attribute-name scan of `parseAttributes`:
`for !unicode.IsSpace(runes[pos]) && runes[pos] != '=' || runes[pos] == '>'`.
Note that `>` satisfies the first conjunct, so the loop runs past `>`
(the `case '>'` in the Go switch below it is unreachable). -/
def scanAttrNameEnd (rs : List Char) (pos : Nat) : Nat → Res Nat
  | 0 => .fuel
  | fuel + 1 =>
      (idx rs pos).bind fun c =>
        if (¬goIsSpace c ∧ c ≠ '=') ∨ c = '>' then
          scanAttrNameEnd rs (pos + 1) fuel
        else .ok pos

/-- Inner loop of `skipGoTemplate`:
`for runes[pos] != '\x7d' && runes[pos+1] != '\x7d'` with Go's
left-to-right short-circuit evaluation of the two indexings. -/
def skipGoTemplateLoop (rs : List Char) (pos : Nat) : Nat → Res Nat
  | 0 => .fuel
  | fuel + 1 =>
      (idx rs pos).bind fun c0 =>
        if c0 = '\x7d' then .ok pos
        else
          (idx rs (pos + 1)).bind fun c1 =>
            if c1 = '\x7d' then .ok pos
            else skipGoTemplateLoop rs (pos + 1) fuel

/-- Embedding of `skipGoTemplate`: skip the `\x7b\x7b`, scan naively for
a closing position, then skip two runes. -/
def skipGoTemplate (rs : List Char) (pos : Nat) (fuel : Nat) : Res Nat :=
  (skipGoTemplateLoop rs (pos + 2) fuel).bind fun p => .ok (p + 2)

/-- Inner loop of `parseQuotedAttribute`: scan for the closing quote,
entering `skipGoTemplate` on `\x7b\x7b`.  When the current rune is `\x7b`
but the next is not, the Go loop does not advance the cursor at all
(an infinite loop, surfaced here as fuel exhaustion). -/
def parseQuotedLoop (rs : List Char) (quote : Char) (valueStart pos : Nat) :
    Nat → Res (List Char × Nat)
  | 0 => .fuel
  | fuel + 1 =>
      (idx rs pos).bind fun c =>
        if c = quote then
          (goSlice rs valueStart pos).bind fun v => .ok (v, pos + 1)
        else if c = '\x7b' then
          (idx rs (pos + 1)).bind fun c1 =>
            if c1 = '\x7b' then
              (skipGoTemplate rs pos fuel).bind fun p =>
                parseQuotedLoop rs quote valueStart p fuel
            else parseQuotedLoop rs quote valueStart pos fuel
        else parseQuotedLoop rs quote valueStart (pos + 1) fuel

/-- Embedding of `parseQuotedAttribute`: the opening rune (whatever it
is) is taken as the quote character and the value runs to the next
occurrence of that same rune. -/
def parseQuotedAttribute (rs : List Char) (pos : Nat) (fuel : Nat) :
    Res (List Char × Nat) :=
  (idx rs pos).bind fun quote =>
    parseQuotedLoop rs quote (pos + 1) (pos + 1) fuel

/-- Main loop of `parseAttributes` (entered with the cursor on the first
rune of an attribute name; loops while the current rune is not `>`).
The `c1 = '>'` branch mirrors Go's unreachable `case '>'`. -/
def parseAttributesLoop (rs : List Char) (attrs : List (String × String))
    (pos : Nat) : Nat → Res (List (String × String) × Nat)
  | 0 => .fuel
  | fuel + 1 =>
      (idx rs pos).bind fun c =>
        if c = '>' then .ok (attrs, pos)
        else
          (scanAttrNameEnd rs pos fuel).bind fun pos1 =>
            (goSlice rs pos pos1).bind fun nameRunes =>
              let name := String.mk nameRunes
              (idx rs pos1).bind fun c1 =>
                if c1 = '>' then .ok (insertKV name "true" attrs, pos1)
                else if c1 = ' ' then
                  (skipWhitespace rs pos1 fuel).bind fun pos2 =>
                    parseAttributesLoop rs (insertKV name "true" attrs) pos2 fuel
                else if c1 = '=' then
                  (parseQuotedAttribute rs (pos1 + 1) fuel).bind fun vp =>
                    (skipWhitespace rs vp.2 fuel).bind fun pos3 =>
                      parseAttributesLoop rs
                        (insertKV name (String.mk vp.1) attrs) pos3 fuel
                else
                  (skipWhitespace rs pos1 fuel).bind fun pos2 =>
                    parseAttributesLoop rs attrs pos2 fuel

/-- Embedding of `parseAttributes`: immediately returns on `>`,
otherwise skips whitespace and runs the attribute loop. -/
def parseAttributes (rs : List Char) (pos : Nat) (fuel : Nat) :
    Res (List (String × String) × Nat) :=
  (idx rs pos).bind fun c =>
    if c = '>' then .ok ([], pos)
    else
      (skipWhitespace rs pos fuel).bind fun pos1 =>
        parseAttributesLoop rs [] pos1 fuel

/-- Tail of `parseTag` for literal (raw) tags: scan past the tag name,
parse and discard attributes, skip whitespace, require `>`, and emit the
whole tag span as a raw node. -/
def rawTagTail (rs : List Char) (start pos : Nat) (prc : List String)
    (fuel : Nat) : Res (Node × Nat × List String) :=
  (scanNameEnd rs pos fuel).bind fun pos1 =>
    (parseAttributes rs pos1 fuel).bind fun ap =>
      (skipWhitespace rs ap.2 fuel).bind fun pos2 =>
        (idx rs pos2).bind fun c =>
          if c = '>' then
            (goSlice rs start (pos2 + 1)).bind fun raw =>
              .ok (mkRaw (String.mk raw), pos2 + 1, prc)
          else .panic "unexpected character when parsing tag"

mutual

/-- Embedding of `goatTemplate.parseTag` (src/template/template.go,
lines 90-207).  `prc` threads the `potentialReferencedComponents` set.
Faithfully kept Go behaviours: the tag-name scan stops only at a space
or `>` (so `/` of a would-be self-closing tag joins the name); when an
uppercase-named tag is not a registered component the `>` is skipped a
second time before slicing the raw span. -/
def parseTag (rs : List Char) (comps : List String) (pos : Nat)
    (prc : List String) : Nat → Res (Node × Nat × List String)
  | 0 => .fuel
  | fuel + 1 =>
      (idx rs pos).bind fun c =>
        if c ≠ '<' then
          .panic "unexpected < when parsing tag, this is a bug in the parser"
        else
          (idx rs (pos + 1)).bind fun c1 =>
            if c1 = '/' then
              (scanToGt rs (pos + 1) fuel).bind fun gt =>
                (goSlice rs pos (gt + 1)).bind fun raw =>
                  .ok (mkRaw (String.mk raw), gt + 1, prc)
            else if goIsUpper c1 then
              (scanNameEnd rs (pos + 1) fuel).bind fun nameEnd =>
                (goSlice rs (pos + 1) nameEnd).bind fun tagRunes =>
                  let tagName := String.mk tagRunes
                  (parseAttributes rs nameEnd fuel).bind fun ap =>
                    (idx rs ap.2).bind fun c2 =>
                      if c2 = '>' then
                        if comps.contains tagName then
                          (parseUntilCloseTag rs tagName comps (ap.2 + 1)
                              (ap.2 + 1) [] prc fuel).bind fun cp =>
                            .ok (mkComponent tagName ap.1 cp.1, cp.2.1, cp.2.2)
                        else
                          (goSlice rs pos (ap.2 + 2)).bind fun raw =>
                            .ok (mkRaw (String.mk raw), ap.2 + 2,
                              insertName tagName prc)
                      else rawTagTail rs pos ap.2 prc fuel
            else rawTagTail rs pos (pos + 1) prc fuel

/-- Embedding of `goatTemplate.parseUntilCloseTag`
(src/template/template.go, lines 309-377).  Loop state: `pos` is the
cursor, `start` the beginning of the pending literal span, `acc` the
children collected so far.  Faithfully kept Go behaviours: end of input
panics ("unclosed component tag"); a close tag whose name differs from
`tag` is consumed without flushing or resetting `start`; on a nested
letter-tag the pending literal is flushed as `runes[start : pos-1]`
(one rune short of the `<`, panicking when the span is empty). -/
def parseUntilCloseTag (rs : List Char) (tag : String) (comps : List String)
    (pos start : Nat) (acc : List Node) (prc : List String) :
    Nat → Res (List Node × Nat × List String)
  | 0 => .fuel
  | fuel + 1 =>
      if rs.length ≤ pos then .panic "unclosed component tag"
      else
        (idx rs pos).bind fun c =>
          if c = '<' then
            (idx rs (pos + 1)).bind fun c1 =>
              if c1 = '/' then
                (scanToGt rs (pos + 2) fuel).bind fun gt =>
                  (goSlice rs (pos + 2) gt).bind fun nameRunes =>
                    if String.mk nameRunes = tag then
                      if start ≠ pos then
                        (goSlice rs start pos).bind fun raw =>
                          .ok (acc ++ [mkRaw (String.mk raw)], gt + 1, prc)
                      else .ok (acc, gt + 1, prc)
                    else
                      parseUntilCloseTag rs tag comps (gt + 1) start acc prc fuel
              else if goIsLetter c1 then
                (goSlice rs start (pos - 1)).bind fun raw =>
                  (parseTag rs comps pos prc fuel).bind fun np =>
                    parseUntilCloseTag rs tag comps np.2.1 np.2.1
                      (acc ++ [mkRaw (String.mk raw)] ++ [np.1]) np.2.2 fuel
              else parseUntilCloseTag rs tag comps (pos + 1) start acc prc fuel
          else parseUntilCloseTag rs tag comps (pos + 1) start acc prc fuel

/-- Embedding of `goatTemplate.parseRoot` (src/template/template.go,
lines 60-86).  Faithfully kept Go behaviour: when the input ends the
pending literal span `runes[start:len]` is not flushed (trailing raw
text after the last tag is dropped). -/
def parseRoot (rs : List Char) (comps : List String) (pos start : Nat)
    (acc : List Node) (prc : List String) :
    Nat → Res (List Node × List String)
  | 0 => .fuel
  | fuel + 1 =>
      if pos < rs.length then
        (idx rs pos).bind fun c =>
          if c = '<' then
            (if start ≠ pos then
                (goSlice rs start pos).bind fun raw =>
                  .ok (acc ++ [mkRaw (String.mk raw)])
              else .ok acc).bind fun acc1 =>
              (parseTag rs comps pos prc fuel).bind fun np =>
                parseRoot rs comps np.2.1 np.2.1 (acc1 ++ [np.1]) np.2.2 fuel
          else parseRoot rs comps (pos + 1) start acc prc fuel
      else .ok (acc, prc)

end

/-- Parse a template string into nodes, as `parse` does before
compilation: `t.parseRoot([]rune(t.rawContent), components)` starting
from position 0 with an empty potential-reference set. -/
def parseTemplateNodes (t : String) (comps : List String) (fuel : Nat) :
    Res (List Node × List String) :=
  parseRoot t.toList comps 0 0 [] [] fuel

/-- Source constant `rootPrefix` of the compiler ("glam__root__"). -/
def rootCarrierName : String := "glam__root__"

/-- Source constant `localsPrefix` of the compiler ("glam__locals__"). -/
def localsCarrierName : String := "glam__locals__"

/-- Source constant `dotPrefix` of the compiler ("glam__dot__"). -/
def dotCarrierName : String := "glam__dot__"

/-- Embedding of `isIdentRune`: first rune of an identifier is a letter
or underscore, later runes also allow digits. -/
def isIdentRune (r : Char) (pos : Nat) : Bool :=
  if pos = 0 then goIsLetter r || r = '_'
  else goIsLetter r || goIsDigit r || r = '_'

/-- The identifier scan of `rewriteTemplateRunes`:
`j := i; for j < len(input) && isIdentRune(input[j], j-i) { j++ }`. -/
def scanIdent (input : List Char) (istart j : Nat) : Nat → Nat
  | 0 => j
  | fuel + 1 =>
      if h : j < input.length then
        if isIdentRune input[j] (j - istart) then
          scanIdent input istart (j + 1) fuel
        else j
      else j

/-- Embedding of the main loop of `rewriteTemplateRunes`.  State:
cursor `i`, the `inAction` / `inString` / `inTemplateString` flags, the
output runes and the captured-locals list.  The Go bug in the
template-string (backtick) close branch is kept faithfully: it clears
`inString` instead of `inTemplateString`, so once a raw-string literal
is entered the scanner never leaves template-string mode. -/
def rtrLoop (input : List Char) (i : Nat) (inAction inStr inTpl : Bool)
    (out : List Char) (locals : List String) :
    Nat → Res (List Char × List String)
  | 0 => .fuel
  | fuel + 1 =>
      if h : i < input.length then
        let c := input[i]
        if inStr then
          if c = '"' ∧ input.getD (i - 1) '\x00' ≠ '\\' then
            rtrLoop input (i + 1) inAction false inTpl (out ++ [c]) locals fuel
          else rtrLoop input (i + 1) inAction true inTpl (out ++ [c]) locals fuel
        else if inTpl then
          if c = '\x60' then
            rtrLoop input (i + 1) inAction false true (out ++ [c]) locals fuel
          else rtrLoop input (i + 1) inAction inStr true (out ++ [c]) locals fuel
        else if i + 1 < input.length ∧ c = '\x7b' ∧
            input.getD (i + 1) '\x00' = '\x7b' then
          rtrLoop input (i + 2) true inStr inTpl
            (out ++ [c, input.getD (i + 1) '\x00']) locals fuel
        else if inAction ∧ i + 1 < input.length ∧ c = '\x7d' ∧
            input.getD (i + 1) '\x00' = '\x7d' then
          rtrLoop input (i + 2) false inStr inTpl
            (out ++ [c, input.getD (i + 1) '\x00']) locals fuel
        else if inAction then
          if c = '$' then
            let j := scanIdent input (i + 1) (i + 1) fuel
            if j = i + 1 then
              let out1 := out ++ ('.' :: rootCarrierName.toList)
              (idx input (i + 1)).bind fun c2 =>
                if c2 = '.' then
                  rtrLoop input (j + 1) inAction inStr inTpl (out1 ++ ['.'])
                    locals fuel
                else rtrLoop input j inAction inStr inTpl out1 locals fuel
            else
              (goSlice input (i + 1) j).bind fun nm =>
                rtrLoop input j inAction inStr inTpl
                  (out ++ ('.' :: localsCarrierName.toList) ++ ('.' :: nm))
                  (locals ++ [String.mk nm]) fuel
          else if c = '.' then
            let j := scanIdent input (i + 1) (i + 1) fuel
            if j = i + 1 then
              rtrLoop input j inAction inStr inTpl
                (out ++ ('.' :: dotCarrierName.toList)) locals fuel
            else
              (goSlice input (i + 1) j).bind fun fld =>
                rtrLoop input j inAction inStr inTpl
                  (out ++ ('.' :: dotCarrierName.toList) ++ ('.' :: fld))
                  locals fuel
          else if c = '"' then
            rtrLoop input (i + 1) inAction true inTpl (out ++ [c]) locals fuel
          else if c = '\x60' then
            rtrLoop input (i + 1) inAction inStr true (out ++ [c]) locals fuel
          else rtrLoop input (i + 1) inAction inStr inTpl (out ++ [c]) locals fuel
        else rtrLoop input (i + 1) inAction inStr inTpl (out ++ [c]) locals fuel
      else .ok (out, locals)

/-- Embedding of `rewriteTemplateRunes` (src/unnamed/part_002,
lines 132-232): run the rewrite loop from the start of the span with
all mode flags clear. -/
def rewriteTemplateRunes (input : List Char) (fuel : Nat) :
    Res (List Char × List String) :=
  rtrLoop input 0 false false false [] [] fuel

/-- Embedding of `rewriteChildren`: rewrite each node's `Raw` text
(the Go guard `Type == Raw || Type == Component` is always true and is
kept verbatim), recurse into children with `depth+1`, and accumulate
captured locals in source order. -/
def rewriteChildren (depth : Nat) : List Node → Nat → Res (List Node × List String)
  | _, 0 => .fuel
  | [], _ + 1 => .ok ([], [])
  | Node.mk ty tn attrs children raw :: rest, fuel + 1 =>
      ((if ty = NodeType.raw ∨ ty = NodeType.component then
          (rewriteTemplateRunes raw.toList fuel).bind fun rl =>
            .ok (String.mk rl.1, rl.2)
        else .ok (raw, ([] : List String)))).bind fun rw =>
        (rewriteChildren (depth + 1) children fuel).bind fun ch =>
          (rewriteChildren depth rest fuel).bind fun rst =>
            .ok (Node.mk ty tn attrs ch.1 rw.1 :: rst.1,
              rw.2 ++ ch.2 ++ rst.2)

/-- Go `strings.Trim`: drop leading and trailing runes that are in the
cutset. -/
def goTrim (s : String) (cutset : List Char) : String :=
  String.mk
    (((s.toList.dropWhile (cutset.contains ·)).reverse.dropWhile
      (cutset.contains ·)).reverse)

/-- Go `strings.HasPrefix(v, open-action-delimiter)` used to decide
whether an attribute value is an expression span. -/
def startsWithAction (s : String) : Bool :=
  match s.toList with
  | '\x7b' :: '\x7b' :: _ => true
  | _ => false

/-- Attribute-dictionary body of `rawCompile`: literal values are
spliced as quoted strings; expression values are trimmed of their
delimiters (after a scope rewrite when in sub-block mode) and spliced
as live sub-expressions. -/
def buildAttrsLoop (subdefine : Bool) (fuel : Nat) :
    List (String × String) → Res String
  | [] => .ok ""
  | (k, v) :: rest =>
      (if startsWithAction v then
          (if subdefine then
              (rewriteTemplateRunes v.toList fuel).bind fun rl =>
                .ok (goTrim (String.mk rl.1) ['\x7b', '\x7d'])
            else .ok (goTrim v ['\x7b', '\x7d', ' '])).bind fun v2 =>
            .ok (" \"" ++ k ++ "\" (" ++ v2 ++ ")")
        else .ok (" \"" ++ k ++ "\" \"" ++ v ++ "\"")).bind fun piece =>
        (buildAttrsLoop subdefine fuel rest).bind fun restS =>
          .ok (piece ++ restS)

/-- The full `(__glamDict ...)` attribute constructor text. -/
def buildAttrs (attrs : List (String × String)) (subdefine : Bool)
    (fuel : Nat) : Res String :=
  (buildAttrsLoop subdefine fuel attrs).bind fun body =>
    .ok ("(__glamDict" ++ body ++ ")")

/-- Captured-locals entries of the context-carrier argument:
one `"x" $x ` piece per captured local, in order. -/
def defineArgsLocals : List String → String
  | [] => ""
  | l :: rest => "\"" ++ l ++ "\" $" ++ l ++ " " ++ defineArgsLocals rest

/-- The top-level context-carrier argument built by `rawCompile` when
not in sub-block mode: current dot, root context, and the captured
locals dictionary. -/
def topDefineArgs (locals : List String) : String :=
  "(__glamDict" ++ " \"" ++ dotCarrierName ++ "\" . \"" ++ rootCarrierName
    ++ "\" $ " ++ "\"" ++ localsCarrierName ++ "\" (__glamDict "
    ++ defineArgsLocals locals ++ "))"

/-- Synthetic block identifier of `newDefine`:
`fmt.Sprintf("glam__%s__%s", node.TagName, randomString())`, with the
crypto/rand suffix modelled by a deterministic counter. -/
def gensym (tag : String) (ctr : Nat) : String :=
  "glam__" ++ tag ++ "__" ++ toString ctr

/-- First pass of `rawCompile` over the node list: build the primary
content and collect the define references (identifier and the node as
stored — for the top-level mode this is the node after the in-place
scope rewrite of its subtree, matching the Go pointer aliasing between
`definition.Node` and the rewritten node). -/
def firstPass (subdefine : Bool) (fuel : Nat) :
    List Node → String → List (String × Node) → Nat →
    Res (String × List (String × Node) × Nat)
  | [], acc, defs, ctr => .ok (acc, defs, ctr)
  | node :: rest, acc, defs, ctr =>
      if node.type = NodeType.raw then
        firstPass subdefine fuel rest (acc ++ node.raw) defs ctr
      else if node.children.length > 0 then
        let identifier := gensym node.tagName ctr
        (buildAttrs node.attributes subdefine fuel).bind fun attrsStr =>
          if subdefine then
            firstPass subdefine fuel rest
              (acc ++ "\x7b\x7b__glamRenderComponent \"" ++ node.tagName
                ++ "\" \"" ++ identifier ++ "\" " ++ attrsStr ++ " .\x7d\x7d")
              (defs ++ [(identifier, node)]) (ctr + 1)
          else
            (rewriteChildren 0 [node] fuel).bind fun rw =>
              let node1 := rw.1.headD node
              firstPass subdefine fuel rest
                (acc ++ "\x7b\x7b__glamRenderComponent \"" ++ node1.tagName
                  ++ "\" \"" ++ identifier ++ "\" " ++ attrsStr ++ " "
                  ++ topDefineArgs rw.2 ++ "\x7d\x7d")
                (defs ++ [(identifier, node1)]) (ctr + 1)
      else
        firstPass subdefine fuel rest
          (acc ++ "\x7b\x7b__glamRenderComponent \"" ++ node.tagName
            ++ "\" \"\" nil .\x7d\x7d")
          defs ctr

mutual

/-- Embedding of `rawCompile` (src/unnamed/part_002, lines 37-113):
returns the primary content and the define fragments, threading the
identifier counter. -/
def rawCompile (nodes : List Node) (subdefine : Bool) (ctr : Nat) :
    Nat → Res (String × List String × Nat)
  | 0 => .fuel
  | fuel + 1 =>
      (firstPass subdefine fuel nodes "" [] ctr).bind fun fp =>
        (emitDefines fp.2.1 fp.2.2 fuel).bind fun ed =>
          .ok (fp.1, ed.1, ed.2)

/-- Second pass of `rawCompile` over the collected define references:
lower each reference's children in sub-block mode and wrap the result
in a named define fragment, emitting nested defines first. -/
def emitDefines : List (String × Node) → Nat → Nat → Res (List String × Nat)
  | [], ctr, _ => .ok ([], ctr)
  | _ :: _, _, 0 => .fuel
  | (identifier, node) :: rest, ctr, fuel + 1 =>
      (rawCompile node.children true ctr fuel).bind fun rc =>
        (emitDefines rest rc.2.2 fuel).bind fun ed =>
          .ok (rc.2.1
            ++ ["\x7b\x7bdefine \"" ++ identifier ++ "\"\x7d\x7d" ++ rc.1
              ++ "\x7b\x7bend\x7d\x7d"]
            ++ ed.1, ed.2)

end

/-- Embedding of `compile` (src/unnamed/part_002, lines 26-31): primary
content followed by the joined define fragments. -/
def compile (nodes : List Node) (ctr fuel : Nat) : Res String :=
  (rawCompile nodes false ctr fuel).bind fun rc =>
    .ok (rc.1 ++ String.join rc.2.1)

/-- The parse-then-compile pipeline of `goatTemplate.parse`: parse the
raw template into nodes and lower them (the final host-engine
`html/template.Parse` step is outside the modelled core). -/
def parseCompile (t : String) (comps : List String) (fuel : Nat) :
    Res String :=
  (parseTemplateNodes t comps fuel).bind fun pr =>
    compile pr.1 0 fuel

/-- Engine state relevant to registration, mirroring the glam `Engine`
struct: the component map, the template map (holding the compiled
template text), and the `recompileMap` that records, per not-yet
registered component name, the previously registered templates (their
name and retained raw source) that referenced it and must be recompiled
when that name is registered. -/
structure Engine where
  components : List String
  templateMap : List (String × String)
  recompileMap : List (String × List (String × String))
deriving DecidableEq, Repr

/-- Go `templates, ok := e.recompileMap[name]`: the pending templates
recorded for a name, when present. -/
def lookupRM (m : List (String × List (String × String))) (k : String) :
    Option (List (String × String)) :=
  match m with
  | [] => none
  | (k', l) :: rest => if k' = k then some l else lookupRM rest k

/-- Go `delete(e.recompileMap, name)`. -/
def deleteRM (m : List (String × List (String × String))) (k : String) :
    List (String × List (String × String)) :=
  match m with
  | [] => []
  | (k', l) :: rest =>
      if k' = k then deleteRM rest k else (k', l) :: deleteRM rest k

/-- Go `e.recompileMap[k] = append(e.recompileMap[k], t)` (creating the
entry when absent). -/
def appendRM (k : String) (v : String × String) :
    List (String × List (String × String)) →
    List (String × List (String × String))
  | [] => [(k, [v])]
  | (k', l) :: rest =>
      if k' = k then (k', l ++ [v]) :: rest else (k', l) :: appendRM k v rest

/-- The loop registering a freshly parsed template `v` under each of
its potentially referenced component names. -/
def registerPrcRefs (prc : List String) (v : String × String)
    (m : List (String × List (String × String))) :
    List (String × List (String × String)) :=
  prc.foldl (fun acc k => appendRM k v acc) m

/-- Embedding of `template.New` as invoked by `parseTemplate`: parse
the raw template into nodes, lower them, and report the compiled text
together with the potentially-referenced-component set (the final
host-engine `html/template.Parse` step is outside the modelled core). -/
def parseCompileWithPrc (t : String) (comps : List String) (fuel : Nat) :
    Res (String × List String) :=
  (parseTemplateNodes t comps fuel).bind fun pr =>
    (compile pr.1 0 fuel).bind fun content => .ok (content, pr.2)

/-- Observable outcome of a `RegisterComponent` call. -/
inductive RegOutcome where
  | ok
  | err (msg : String)
  | panicked (msg : String)
  | fuelOut
deriving DecidableEq, Repr

mutual

/-- Embedding of `Engine.parseTemplate`
(src/internal/compiler/compiler.go, second unit, lines 373-405).  The
returned engine is the state as left behind even when the computation
panics (Go panics unwind but the engine's maps keep their mutations).
Faithfully kept Go behaviours: pending templates recorded for the name
are recompiled first, overwriting their template-map entries, and the
recompile entry is deleted only after the whole loop succeeds; the new
template is then parsed, registered under each name it potentially
references, and stored in the template map. -/
def parseTemplateE (e : Engine) (name templateValue : String) :
    Nat → Res Unit × Engine
  | 0 => (.fuel, e)
  | fuel + 1 =>
      let step :=
        match lookupRM e.recompileMap name with
        | none => ((.ok () : Res Unit), e)
        | some pending =>
            match recompileAll e pending fuel with
            | (.ok _, e1) =>
                (.ok (), { e1 with recompileMap := deleteRM e1.recompileMap name })
            | other => other
      match step with
      | (.ok _, e2) =>
          match parseCompileWithPrc templateValue e2.components fuel with
          | .ok cp =>
              (.ok (), { e2 with
                recompileMap :=
                  registerPrcRefs cp.2 (name, templateValue) e2.recompileMap,
                templateMap := insertKV name cp.1 e2.templateMap })
          | .panic m => (.panic m, e2)
          | .fuel => (.fuel, e2)
      | other => other

/-- The recompilation loop of `parseTemplate`: re-register each pending
template (by its name and retained raw source) in order, stopping at
the first failure with the mutations made so far kept. -/
def recompileAll (e : Engine) : List (String × String) → Nat → Res Unit × Engine
  | [], _ => (.ok (), e)
  | _ :: _, 0 => (.fuel, e)
  | (tn, traw) :: rest, fuel + 1 =>
      match parseTemplateE e tn traw fuel with
      | (.ok _, e1) => recompileAll e1 rest fuel
      | other => other

end

/-- Embedding of `Engine.RegisterComponent`
(src/internal/compiler/compiler.go, second unit, lines 326-350).  The
reflect-based extraction of the value's type name is modelled by taking
the name directly.  Faithfully kept Go behaviours: the only name check
is `unicode.IsLower` on the first rune (there is no literal-markup /
HTML tag collision check); the component map is updated before
`parseTemplate` runs, so a parse panic leaves the new entry behind. -/
def registerComponent (e : Engine) (name tmpl : String) (fuel : Nat) :
    RegOutcome × Engine :=
  match idx name.toList 0 with
  | .ok c =>
      if goIsLower c then
        (.err ("component " ++ name
          ++ " is private, registered components must be public"), e)
      else
        let e1 := { e with components := insertName name e.components }
        match parseTemplateE e1 name tmpl fuel with
        | (.ok _, e2) => (.ok, e2)
        | (.panic msg, e2) => (.panicked msg, e2)
        | (.fuel, e2) => (.fuelOut, e2)
  | .panic msg => (.panicked msg, e)
  | .fuel => (.fuelOut, e)

/-- Final space-separated argument of an emitted call-out, read off the
text before the two closing delimiter runes.  Used to state which
argument occupies the context-carrier slot of the four-argument
`__glamRenderComponent` protocol (engine.go, `generateRenderFunc`). -/
def lastCallArg (s : String) : String :=
  String.mk ((((s.toList.dropLast).dropLast).reverse.takeWhile
    (fun c => c ≠ ' ')).reverse)

/-- Successful rune indexing implies the index is in range. -/
theorem idx_lt_of_ok {rs : List Char} {i : Nat} {c : Char}
    (h : idx rs i = .ok c) : i < rs.length := by
  by_cases h' : i < rs.length
  · exact h'
  · simp [idx, h'] at h

/-- C1: evaluation of the code at the failing inputs.  The claim states
that compiling any template with no component tags reproduces the input
text, including trailing literal text after the last tag and templates
with no tags at all.  In the code, `parseRoot` only flushes the pending
literal span when it meets a `<`, never when the input ends, so the
tagless template "hi" compiles to the empty string and the trailing
`\x7b\x7bend\x7d\x7d` (written here with escaped braces) after the last
tag of the second template is dropped — the repository's own tests
(e.g. `TestRenderLoop`) register templates whose trailing `end` action
must survive compilation. -/
theorem c1_trailing_literal_dropped :
    parseCompile "hi" [] 100 = .ok "" ∧ ("" : String) ≠ "hi" ∧
    parseCompile "<b>x</b>\x7b\x7bend\x7d\x7d" [] 200 = .ok "<b>x</b>" ∧
    ("<b>x</b>" : String) ≠ "<b>x</b>\x7b\x7bend\x7d\x7d" :=
  ⟨rfl, by decide, rfl, by decide⟩

/-- C2: evaluation of the code at the failing input.  The claim states
that inside a rewritten expression span every `$x` becomes a lookup of
`x` on the locals carrier with `x` captured, while string-literal and
raw-string-literal contents are never rewritten.  The close-backtick
branch of `rewriteTemplateRunes` clears `inString` instead of
`inTemplateString`, so after the raw string in the first span closes
the scanner is still in template-string mode: the following `$x` is
copied verbatim and `x` is not captured.  The second conjunct shows the
rewrite behaving as claimed on the same reference without a preceding
raw string. -/
theorem c2_rawstring_mode_never_left :
    rewriteTemplateRunes "\x7b\x7b\x60a\x60$x\x7d\x7d".toList 100 =
      .ok ("\x7b\x7b\x60a\x60$x\x7d\x7d".toList, []) ∧
    rewriteTemplateRunes "\x7b\x7b$x\x7d\x7d".toList 100 =
      .ok ("\x7b\x7b.glam__locals__.x\x7d\x7d".toList, ["x"]) :=
  ⟨rfl, rfl⟩

/-- C3 counterexample: the claim states that the literal span flushed
when the child-content scanner meets a nested tag ends exactly at the
`<`.  Parsing `<X>ab<i>x</i></X>` with `X` registered flushes the span
before `<i>` as `"a"` — the rune `b` immediately before the `<` is
dropped (the Go slice is `runes[start : t.pos-1]`), so the claimed
first child `"ab"` is not produced. -/
theorem c3_counterexample_flush_drops_rune :
    parseTemplateNodes "<X>ab<i>x</i></X>" ["X"] 200 =
      .ok ([mkComponent "X" [] [mkRaw "a", mkRaw "<i>", mkRaw "x</i>"]], []) ∧
    ("a" : String) ≠ "ab" := ⟨rfl, by decide⟩

/-- C3 (amended): when the child-content scanner meets a `<` followed
by a letter, the literal span it flushes as a Raw child is
`runes[start : pos-1]` — it ends one rune before the `<`, dropping the
final rune of the pending literal text (and panicking via the slice
bounds when the pending span is empty); no part of the nested tag is
included, and scanning resumes with the nested tag parser. -/
theorem c3_flush_ends_one_before_tag_start (rs : List Char) (tag : String)
    (comps : List String) (pos start : Nat) (acc : List Node)
    (prc : List String) (fuel : Nat) (c1 : Char)
    (h1 : idx rs pos = .ok '<')
    (h2 : idx rs (pos + 1) = .ok c1)
    (h3 : c1 ≠ '/')
    (h4 : goIsLetter c1 = true) :
    parseUntilCloseTag rs tag comps pos start acc prc (fuel + 1) =
      (goSlice rs start (pos - 1)).bind fun raw =>
        (parseTag rs comps pos prc fuel).bind fun np =>
          parseUntilCloseTag rs tag comps np.2.1 np.2.1
            (acc ++ [mkRaw (String.mk raw)] ++ [np.1]) np.2.2 fuel := by
  have hlt := idx_lt_of_ok h1
  rw [parseUntilCloseTag, if_neg (Nat.not_le.mpr hlt), h1]
  simp only [Res.bind, h2, h3, h4, if_pos rfl]
  simp [h3, h4]

/-- C3 (amended) witness: the amended flush equation instantiated at
the nested `<i>` tag of `<X>ab<i>x</i></X>` (cursor 5, pending literal
starting at 3), where the flushed slice is `runes[3:4] = "a"`. -/
theorem c3_flush_ends_one_before_tag_start_witness :
    parseUntilCloseTag "<X>ab<i>x</i></X>".toList "X" ["X"] 5 3 [] [] 51 =
      (goSlice "<X>ab<i>x</i></X>".toList 3 4).bind fun raw =>
        (parseTag "<X>ab<i>x</i></X>".toList ["X"] 5 [] 50).bind fun np =>
          parseUntilCloseTag "<X>ab<i>x</i></X>".toList "X" ["X"] np.2.1
            np.2.1 ([] ++ [mkRaw (String.mk raw)] ++ [np.1]) np.2.2 50 :=
  c3_flush_ends_one_before_tag_start "<X>ab<i>x</i></X>".toList "X" ["X"]
    5 3 [] [] 50 'i' rfl rfl (by decide) rfl

/-- C4: sub-block lowering performs no second scope rewrite.  First
conjunct: in sub-block mode every Raw node's text is emitted verbatim,
so text whose scope references were already rewritten is left
unchanged; second conjunct instantiates this at already-rewritten
dot-carrier and locals-carrier paths.  Third conjunct: a nested
component call lowered in sub-block mode receives the bare current
context `.` as its context-carrier argument.  Fourth conjunct: the full
pipeline on a component whose child references `$y` — the top-level
pass rewrites once and captures `y` into a fresh context-carrier, and
the sub-block pass that emits the define body leaves the rewritten
reference untouched (no double substitution). -/
theorem c4_subblock_lowering_no_second_rewrite :
    (∀ (s : String) (ctr fuel : Nat),
      rawCompile [mkRaw s] true ctr (fuel + 1) = .ok (s, [], ctr)) ∧
    rawCompile
      [mkRaw "\x7b\x7b.glam__dot__.F\x7d\x7d \x7b\x7b.glam__locals__.x\x7d\x7d"]
      true 7 100 =
      .ok ("\x7b\x7b.glam__dot__.F\x7d\x7d \x7b\x7b.glam__locals__.x\x7d\x7d",
        [], 7) ∧
    rawCompile [mkComponent "X" [] [mkRaw "hi"]] true 0 100 =
      .ok ("\x7b\x7b__glamRenderComponent \"X\" \"glam__X__0\" (__glamDict) .\x7d\x7d",
        ["\x7b\x7bdefine \"glam__X__0\"\x7d\x7dhi\x7b\x7bend\x7d\x7d"], 1) ∧
    rawCompile [mkComponent "X" [] [mkRaw "\x7b\x7b$y\x7d\x7d"]] false 0 100 =
      .ok ("\x7b\x7b__glamRenderComponent \"X\" \"glam__X__0\" (__glamDict) (__glamDict \"glam__dot__\" . \"glam__root__\" $ \"glam__locals__\" (__glamDict \"y\" $y ))\x7d\x7d",
        ["\x7b\x7bdefine \"glam__X__0\"\x7d\x7d\x7b\x7b.glam__locals__.y\x7d\x7d\x7b\x7bend\x7d\x7d"],
        1) := by
  refine ⟨?_, rfl, rfl, rfl⟩
  intro s ctr fuel
  simp [rawCompile, firstPass, emitDefines, mkRaw, Node.type, Node.raw, Res.bind]

/-- C5 counterexample: the claim states that a structurally failing
template makes `RegisterComponent` return a descriptive error with the
component and template maps unchanged.  Registering `Foo` with the
unclosed template `<Foo>` on a fresh engine instead ends in the
parser's panic (no error return), and the component map has gained the
entry `Foo`, because the code inserts into `e.components` before
`parseTemplate` runs. -/
theorem c5_counterexample_components_mutated_on_parse_panic :
    registerComponent ⟨[], [], []⟩ "Foo" "<Foo>" 200 =
      (.panicked "unclosed component tag", ⟨["Foo"], [], []⟩) ∧
    (["Foo"] : List String) ≠ [] := ⟨rfl, by decide⟩

/-- C5 (amended): for every RegisterComponent call whose template fails
structurally at parse time, the call aborts via the parser's panic
rather than an error return, and the component map retains the entry
just inserted for the component being registered.  First conjunct: when
the engine has no pending forward-reference recompilations recorded for
that name, the template map and recompile map are also unchanged.
Second conjunct: that proviso is necessary — on an engine where a
previously registered template (`B`, raw source retained in the
recompile map) recorded the name being registered as a forward
reference, the recompilation step overwrites `B`'s template-map entry
and consumes the recompile entry before the new template's parse
panics, so the template map is not unchanged in general. -/
theorem c5_parse_failure_panics_and_keeps_component_entry :
    (∀ (e : Engine) (name tmpl msg : String) (fuel : Nat) (c : Char),
      idx name.toList 0 = .ok c →
      goIsLower c = false →
      lookupRM e.recompileMap name = none →
      parseCompileWithPrc tmpl (insertName name e.components) fuel =
        .panic msg →
      registerComponent e name tmpl (fuel + 1) =
        (.panicked msg,
          ⟨insertName name e.components, e.templateMap, e.recompileMap⟩)) ∧
    registerComponent
        ⟨["B"], [("B", "old")], [("Foo", [("B", "<Foo>hi</Foo>")])]⟩
        "Foo" "<Foo>" 300 =
      (.panicked "unclosed component tag",
        ⟨["B", "Foo"],
          [("B", "\x7b\x7b__glamRenderComponent \"Foo\" \"glam__Foo__0\" (__glamDict) (__glamDict \"glam__dot__\" . \"glam__root__\" $ \"glam__locals__\" (__glamDict ))\x7d\x7d\x7b\x7bdefine \"glam__Foo__0\"\x7d\x7dhi\x7b\x7bend\x7d\x7d")],
          []⟩) := by
  refine ⟨?_, rfl⟩
  intro e name tmpl msg fuel c h1 h2 h0 h3
  rw [registerComponent, h1]
  simp only [h2, Bool.false_eq_true, if_false, parseTemplateE, h0, h3]

/-- C5 (amended) witness: the universal conjunct instantiated at a
fresh engine (empty recompile map), component name `Foo` and the
unclosed template `<Foo>`. -/
theorem c5_parse_failure_panics_and_keeps_component_entry_witness :
    registerComponent ⟨[], [], []⟩ "Foo" "<Foo>" 100 =
      (.panicked "unclosed component tag", ⟨["Foo"], [], []⟩) :=
  c5_parse_failure_panics_and_keeps_component_entry.1 ⟨[], [], []⟩ "Foo"
    "<Foo>" "unclosed component tag" 99 'F' rfl rfl rfl rfl

/-- C6: evaluation of the code at the failing input.  The claim states
that a self-closing component tag always parses to a Component node
with zero children and renders like the paired form.  The tag-name
scan stops only at a space or `>`, so in `<X/>a` the name is read as
`X/`, which matches no registered component: the parser emits a single
Raw node spanning the tag plus the following rune (no Component node at
all), and the compiled output differs from that of `<X></X>a`. -/
theorem c6_self_closing_component_parses_as_raw :
    parseTemplateNodes "<X/>a" ["X"] 100 = .ok ([mkRaw "<X/>a"], ["X/"]) ∧
    parseCompile "<X/>a" ["X"] 100 = .ok "<X/>a" ∧
    parseCompile "<X></X>a" ["X"] 200 =
      .ok "\x7b\x7b__glamRenderComponent \"X\" \"\" nil .\x7d\x7d" ∧
    ("<X/>a" : String) ≠
      "\x7b\x7b__glamRenderComponent \"X\" \"\" nil .\x7d\x7d" :=
  ⟨rfl, rfl, rfl, by decide⟩

/-- C7: evaluation of the code at the failing input.  The claim states
that a bare attribute name followed by `>` is a boolean attribute whose
name contains nothing past its terminator.  The attribute-name loop
condition keeps scanning whenever the rune is `>` (its unreachable
`case '>'` notwithstanding), so for the attribute text `async>b >x`
the recorded name is `async>b` — it has absorbed the `>` and the rune
after it.  The second conjunct shows the space-terminated boolean
attribute behaving as claimed. -/
theorem c7_attribute_name_scan_runs_past_gt :
    parseAttributes "async>b >x".toList 0 100 =
      .ok ([("async>b", "true")], 8) ∧
    parseAttributes "async >".toList 0 100 = .ok ([("async", "true")], 6) :=
  ⟨rfl, rfl⟩

/-- C8 counterexample: the claim states that a childless component is
emitted as a call-out with the empty block identifier and a null
context-carrier argument.  In the emitted text the final (context
carrier) argument of the four-argument call protocol is the bare
current context `.`; the `nil` occupies the attribute-dictionary slot
before it. -/
theorem c8_counterexample_context_carrier_is_dot :
    compile [mkComponent "X" [] []] 0 10 =
      .ok "\x7b\x7b__glamRenderComponent \"X\" \"\" nil .\x7d\x7d" ∧
    lastCallArg "\x7b\x7b__glamRenderComponent \"X\" \"\" nil .\x7d\x7d" = "." ∧
    ("." : String) ≠ "nil" := ⟨rfl, rfl, by decide⟩

/-- C8 (amended): for every Component node with zero children the
compiler emits a single call-out with the empty string as block
identifier, a null attribute-dictionary argument, and the bare current
context `.` as the context-carrier, and generates no named define block
for that occurrence — in both top-level and sub-block mode. -/
theorem c8_childless_callout_empty_id_nil_attrs_dot_carrier :
    rawCompile [mkComponent "X" [] []] false 0 10 =
      .ok ("\x7b\x7b__glamRenderComponent \"X\" \"\" nil .\x7d\x7d", [], 0) ∧
    rawCompile [mkComponent "X" [] []] true 0 10 =
      .ok ("\x7b\x7b__glamRenderComponent \"X\" \"\" nil .\x7d\x7d", [], 0) :=
  ⟨rfl, rfl⟩

/-- C9: evaluation of the code at the failing input.  The claim states
that `RegisterComponent` rejects names that collide with a recognized
HTML tag name.  The code's only name check is `unicode.IsLower` on the
first rune: registering `Title` — which the repository's own
`TestRegistrationFailures` expects to fail with a conflict error for
the HTML `title` tag — succeeds and registers the component.  The
second conjunct shows the lowercase-name half of the check working. -/
theorem c9_html_tag_collision_unchecked :
    registerComponent ⟨[], [], []⟩ "Title" "<h1>Hi</h1>" 200 =
      (.ok, ⟨["Title"], [("Title", "<h1>Hi</h1>")], []⟩) ∧
    registerComponent ⟨[], [], []⟩ "title" "<h1>Hi</h1>" 200 =
      (.err "component title is private, registered components must be public",
        ⟨[], [], []⟩) :=
  ⟨rfl, rfl⟩

/-- C10: close-tag discipline of the child-content scanner.  First
conjunct: reaching the end of input aborts the scan with the unclosed
component tag panic.  Second conjunct: a closing tag whose name differs
from the expected component name is consumed whole and scanning
continues with the same pending-literal start and the same collected
children, so its text stays inside the accumulated literal span.  Third
conjunct: a closing tag whose name equals the expected name returns the
collected children, flushing the pending literal span (which contains
any mismatched closing tags met on the way) as a final Raw child.
Fourth conjunct: an end-to-end run in which the mismatched `</i>` is
consumed and later emitted inside the Raw child `x</i>`. -/
theorem c10_child_scan_close_tag_discipline :
    (∀ (rs : List Char) (tag : String) (comps : List String)
        (pos start : Nat) (acc : List Node) (prc : List String) (fuel : Nat),
        rs.length ≤ pos →
        parseUntilCloseTag rs tag comps pos start acc prc (fuel + 1) =
          .panic "unclosed component tag") ∧
    (∀ (rs : List Char) (tag : String) (comps : List String)
        (pos start : Nat) (acc : List Node) (prc : List String)
        (fuel gt : Nat) (nm : List Char),
        idx rs pos = .ok '<' →
        idx rs (pos + 1) = .ok '/' →
        scanToGt rs (pos + 2) fuel = .ok gt →
        goSlice rs (pos + 2) gt = .ok nm →
        String.mk nm ≠ tag →
        parseUntilCloseTag rs tag comps pos start acc prc (fuel + 1) =
          parseUntilCloseTag rs tag comps (gt + 1) start acc prc fuel) ∧
    (∀ (rs : List Char) (tag : String) (comps : List String)
        (pos start : Nat) (acc : List Node) (prc : List String)
        (fuel gt : Nat) (nm sp : List Char),
        idx rs pos = .ok '<' →
        idx rs (pos + 1) = .ok '/' →
        scanToGt rs (pos + 2) fuel = .ok gt →
        goSlice rs (pos + 2) gt = .ok nm →
        String.mk nm = tag →
        start ≠ pos →
        goSlice rs start pos = .ok sp →
        parseUntilCloseTag rs tag comps pos start acc prc (fuel + 1) =
          .ok (acc ++ [mkRaw (String.mk sp)], gt + 1, prc)) ∧
    (parseUntilCloseTag "x</i></X>".toList "X" [] 0 0 [] [] 30 =
      .ok ([mkRaw "x</i>"], 9, [])) := by
  refine ⟨?_, ?_, ?_, rfl⟩
  · intro rs tag comps pos start acc prc fuel h
    rw [parseUntilCloseTag, if_pos h]
  · intro rs tag comps pos start acc prc fuel gt nm h1 h2 h3 h4 h5
    have hlt := idx_lt_of_ok h1
    rw [parseUntilCloseTag, if_neg (Nat.not_le.mpr hlt), h1]
    simp only [Res.bind, h2, h3, h4, if_pos rfl]
    simp [h5]
  · intro rs tag comps pos start acc prc fuel gt nm sp h1 h2 h3 h4 h5 h6 h7
    have hlt := idx_lt_of_ok h1
    rw [parseUntilCloseTag, if_neg (Nat.not_le.mpr hlt), h1]
    simp only [Res.bind, h2, h3, h4, if_pos rfl]
    simp [h5, h6, h7]

/-- C10 witness: the three hypothesized conjuncts instantiated at
concrete inputs — empty input aborts; the mismatched `</i>` of
`</i></X>` is consumed with state preserved; the matching `</X>` of
`x</X>` returns the flushed Raw child `x`. -/
theorem c10_child_scan_close_tag_discipline_witness :
    (parseUntilCloseTag [] "X" [] 0 0 [] [] 1 =
      .panic "unclosed component tag") ∧
    (parseUntilCloseTag "</i></X>".toList "X" [] 0 0 [] [] 21 =
      parseUntilCloseTag "</i></X>".toList "X" [] 4 0 [] [] 20) ∧
    (parseUntilCloseTag "x</X>".toList "X" [] 1 0 [] [] 21 =
      .ok ([mkRaw "x"], 5, [])) :=
  ⟨c10_child_scan_close_tag_discipline.1 [] "X" [] 0 0 [] [] 0 (by decide),
   c10_child_scan_close_tag_discipline.2.1 "</i></X>".toList "X" [] 0 0 [] []
     20 3 ['i'] rfl rfl rfl rfl (by decide),
   c10_child_scan_close_tag_discipline.2.2.1 "x</X>".toList "X" [] 1 0 [] []
     20 4 ['X'] ['x'] rfl rfl rfl rfl rfl (by decide) rfl⟩
